import Mathlib

set_option maxHeartbeats 1000000

deriving instance DecidableEq for Except

/-!
Shallow embedding of the bio2bel_kegg flat-file parsers (`parsers.py`) and of the
protein-pathway population loop (`manager.py`).  Python strings are modelled as
lists of characters; fallible Python code returns `Except PyErr`.
-/

/-- Python strings are modelled as lists of characters. -/
abbrev PyStr := List Char

/-- Python exceptions that the modelled code can raise.  `valueError` carries the
message Python attaches to the exception. -/
inductive PyErr where
  | indexError
  | keyError
  | valueError (msg : PyStr)
  | unboundLocalError
  | unknownPathwayError
deriving DecidableEq

/-- Whitespace characters recognised by Python `str.strip()` and the regex class. -/
def isPyWs (c : Char) : Bool :=
  c == ' ' || c == '\t' || c == '\n' || c == '\r' || c == Char.ofNat 11 || c == Char.ofNat 12

/-- Drop a leading and a trailing run of characters satisfying `p`, modelling
Python `str.strip` with the given character class. -/
def pyStripBoth (p : Char → Bool) (s : PyStr) : PyStr :=
  ((s.dropWhile p).reverse.dropWhile p).reverse

/-- Python `str.strip()` with no argument: strip whitespace on both sides. -/
def pyStrip (s : PyStr) : PyStr := pyStripBoth isPyWs s

/-- Python `str.strip(' ')`: strip space characters on both sides. -/
def pyStripSpaces (s : PyStr) : PyStr := pyStripBoth (fun c => c == ' ') s

/-- Python `str.strip(';')`: strip semicolons on both sides. -/
def pyStripSemis (s : PyStr) : PyStr := pyStripBoth (fun c => c == ';') s

/-- Split at the first occurrence of `sep`, if any; `some (a, b)` means the string
is `a ++ sep :: b` with no `sep` in `a`.  Backs Python `s.split(sep, 1)`. -/
def splitOnceOn (sep : Char) : PyStr → Option (PyStr × PyStr)
  | [] => none
  | c :: cs =>
    if c = sep then some ([], cs)
    else
      match splitOnceOn sep cs with
      | none => none
      | some (a, b) => some (c :: a, b)

/-- Python `s.split(sep)` for a one-character separator: split at every
occurrence of `sep`, keeping empty chunks. -/
def pySplit (sep : Char) : PyStr → List PyStr
  | [] => [[]]
  | c :: cs =>
    if c = sep then [] :: pySplit sep cs
    else
      match pySplit sep cs with
      | [] => [[c]]
      | t :: ts => (c :: t) :: ts

/-- Auxiliary for `pySplitWs`; `cur` holds the current chunk, reversed. -/
def pySplitWsAux (cur : PyStr) : PyStr → List PyStr
  | [] => if cur = [] then [] else [cur.reverse]
  | c :: cs =>
    if isPyWs c then
      if cur = [] then pySplitWsAux [] cs else cur.reverse :: pySplitWsAux [] cs
    else pySplitWsAux (c :: cur) cs

/-- Python `s.split()` with no separator: split on runs of whitespace, discarding
empty chunks. -/
def pySplitWs (s : PyStr) : List PyStr := pySplitWsAux [] s

/-- Auxiliary for `reSplitWs2`; `cur` holds the current chunk, reversed.  A run of
two or more whitespace characters is a separator match (the regex is greedy, so a
maximal run is consumed); a lone whitespace character stays in the chunk. -/
def reSplitWs2Go (cur : PyStr) (s : PyStr) : List PyStr :=
  match s with
  | [] => [cur.reverse]
  | c :: cs =>
    if isPyWs c then
      match cs with
      | [] => [(c :: cur).reverse]
      | d :: ds =>
        if isPyWs d then
          cur.reverse :: reSplitWs2Go [] (ds.dropWhile isPyWs)
        else
          reSplitWs2Go (d :: c :: cur) ds
    else
      reSplitWs2Go (c :: cur) cs
termination_by s.length
decreasing_by
  · have h : (ds.dropWhile isPyWs).length ≤ ds.length := (List.dropWhile_sublist _).length_le
    simp only [List.length_cons]
    omega
  · simp only [List.length_cons]
    omega
  · simp only [List.length_cons]
    omega

/-- Python `re.split` on the pattern matching two-or-more whitespace characters. -/
def reSplitWs2 (s : PyStr) : List PyStr := reSplitWs2Go [] s

/-- `parse_entry_line` from parsers.py:
`tuple(line.strip(' ') for line in line.split()[1:])`. -/
def parse_entry_line (line : PyStr) : List PyStr :=
  ((pySplitWs line).drop 1).map pyStripSpaces

/-- `remove_first_word` from parsers.py: `string.split(' ', 1)[1].strip()`; the
index `[1]` raises `IndexError` when the string contains no space. -/
def remove_first_word (string : PyStr) : Except PyErr PyStr :=
  match splitOnceOn ' ' string with
  | none => Except.error PyErr.indexError
  | some (_, b) => Except.ok (pyStrip b)

/-- `get_first_word` from parsers.py: `string.split(' ', 1)[0]`. -/
def get_first_word (string : PyStr) : PyStr :=
  match splitOnceOn ' ' string with
  | none => string
  | some (a, _) => a

/-- `parse_pathway_line` from parsers.py: remove the first word, then
`tuple(line.strip(' ') for line in re.split(two-or-more-whitespace, line))`. -/
def parse_pathway_line (line : PyStr) : Except PyErr (List PyStr) :=
  match remove_first_word line with
  | Except.error e => Except.error e
  | Except.ok r => Except.ok ((reSplitWs2 r).map pyStripSpaces)

/-- Python tuple unpacking `a, b = xs` of a list into exactly two variables,
with the messages `ValueError` carries in each failing case. -/
def unpack2 (xs : List PyStr) : Except PyErr (PyStr × PyStr) :=
  match xs with
  | [a, b] => Except.ok (a, b)
  | [] => Except.error (PyErr.valueError "not enough values to unpack (expected 2, got 0)".toList)
  | [_] => Except.error (PyErr.valueError "not enough values to unpack (expected 2, got 1)".toList)
  | _ => Except.error (PyErr.valueError "too many values to unpack (expected 2)".toList)

/-- `parse_link_line` from parsers.py: remove the first word, then
`column, link_id = line.split(":")` and return `(column.strip(), link_id.strip())`. -/
def parse_link_line (line : PyStr) : Except PyErr (PyStr × PyStr) :=
  match remove_first_word line with
  | Except.error e => Except.error e
  | Except.ok r =>
    match unpack2 (pySplit ':' r) with
    | Except.error e => Except.error e
    | Except.ok (a, b) => Except.ok (pyStrip a, pyStrip b)

/-- The record assembled by `parse_description`: the four keys the dictionary can
hold (`ENTRY`, `ENTRY_NAME`, `PATHWAY`, `DBLINKS`), absent keys as `none`/`[]`. -/
structure Description where
  entry : Option (List PyStr) := none
  entry_name : Option PyStr := none
  pathway : List (List PyStr) := []
  dblinks : List (PyStr × PyStr) := []
deriving DecidableEq

/-- Python `line.startswith(' ')`. -/
def pyStartswithSpace : PyStr → Bool
  | [] => false
  | c :: _ => c == ' '

/-- The value of the local variable `keyword` after the first `if` of the loop
body of `parse_description`: on a non-indented line it is reassigned to the first
word, otherwise the previous value (possibly still unassigned) carries over. -/
def effKeyword (kw0 : Option PyStr) (line : PyStr) : Option PyStr :=
  if pyStartswithSpace line then kw0 else some (get_first_word line)

/-- The keyword dispatch of the loop body of `parse_description` from parsers.py:
how one line updates the record, given the section keyword in force. -/
def parse_line_with (kw : PyStr) (d : Description) (line : PyStr) : Except PyErr Description :=
  if kw = "ENTRY".toList then
    Except.ok { d with entry := some (parse_entry_line line) }
  else if kw = "NAME".toList then
    match parse_entry_line line with
    | [] => Except.ok d
    | x :: _ => Except.ok { d with entry_name := some (pyStripSemis x) }
  else if kw = "PATHWAY".toList then
    match parse_pathway_line line with
    | Except.error e => Except.error e
    | Except.ok t => Except.ok { d with pathway := d.pathway ++ [t] }
  else if kw = "DBLINKS".toList then
    match parse_link_line line with
    | Except.error e => Except.error e
    | Except.ok p => Except.ok { d with dblinks := d.dblinks ++ [p] }
  else Except.ok d

/-- One iteration of the loop body of `parse_description` from parsers.py.
Reading `keyword` before any non-indented line assigned it raises
`UnboundLocalError`. -/
def parse_description_step :
    Option PyStr × Description → PyStr → Except PyErr (Option PyStr × Description)
  | (kw0, d), line =>
    match effKeyword kw0 line with
    | none => Except.error PyErr.unboundLocalError
    | some kw =>
      match parse_line_with kw d line with
      | Except.error e => Except.error e
      | Except.ok d' => Except.ok (some kw, d')

/-- `parse_description` from parsers.py, over the decoded lines of the response. -/
def parse_description (lines : List PyStr) : Except PyErr Description :=
  match lines.foldlM parse_description_step ((none : Option PyStr), ({} : Description)) with
  | Except.error e => Except.error e
  | Except.ok (_, d) => Except.ok d

/-- Python dictionary insertion: an existing binding of the key is updated in
place, a new key is appended at the end. -/
def dictInsert (k : PyStr) (v : PyStr) (d : List (PyStr × PyStr)) : List (PyStr × PyStr) :=
  if k ∈ d.map Prod.fst then d.map (fun p => if p.1 = k then (k, v) else p)
  else d ++ [(k, v)]

/-- The dictionary built by a Python dict comprehension over `items`, in order:
later occurrences of a key overwrite earlier ones. -/
def dictOf (items : List (PyStr × PyStr)) : List (PyStr × PyStr) :=
  items.foldl (fun d p => dictInsert p.1 p.2 d) []

/-- Python dictionary lookup `d[k]` over an association list, `none` when absent. -/
def lookupAssoc (d : List (PyStr × List (PyStr × PyStr))) (k : PyStr) :
    Option (List (PyStr × PyStr)) :=
  match d with
  | [] => none
  | (k', v) :: rest => if k' = k then some v else lookupAssoc rest k

/-- `get_description_properties` from parsers.py:
`{pair[0]: pair[1] for pair in description[description_property] if pair[0] in columns}`;
the subscript on a record lacking the section raises `KeyError`. -/
def get_description_properties (description : List (PyStr × List (PyStr × PyStr)))
    (description_property : PyStr) (columns : List PyStr) :
    Except PyErr (List (PyStr × PyStr)) :=
  match lookupAssoc description description_property with
  | none => Except.error PyErr.keyError
  | some pairs => Except.ok (dictOf (pairs.filter (fun p => decide (p.1 ∈ columns))))

/-- Python `str.lower()` (the keys involved are plain ASCII). -/
def pyLower (s : PyStr) : PyStr := s.map Char.toLower

/-- `kegg_properties_to_models` from parsers.py:
`{key.lower() + underscore-id: value for key, value in kegg_attributes.items() if len(value) < 255}`. -/
def kegg_properties_to_models (kegg_attributes : List (PyStr × PyStr)) :
    List (PyStr × PyStr) :=
  dictOf ((kegg_attributes.filter (fun p => decide (p.2.length < 255))).map
    (fun p => (pyLower p.1 ++ "_id".toList, p.2)))

/-- The `path:` normalization from manager.py:
`if kegg_pathway_id.startswith('path:'): kegg_pathway_id = kegg_pathway_id[5:]`. -/
def strip_path (w : PyStr) : PyStr :=
  if "path:".toList = w.take 5 then w.drop 5 else w

/-- An edge of the protein-pathway relation: `(protein_id, pathway_id)`. -/
abbrev Edge := PyStr × PyStr

/-- The state built by the membership loop of `_populate_pathway_protein`: the
inserted edges and the pathway ids that were warned about and skipped. -/
structure BuildResult where
  edges : List Edge
  misses : List PyStr
deriving DecidableEq

/-- Modelled from the spec: the `protein_pathway` association behind
`protein.pathways.append(pathway)` lives in `models.py`, which is not under
`src/`; per the spec membership pairs are deduplicated, so an edge is inserted
only when absent. -/
def insertEdge (e : Edge) (es : List Edge) : List Edge :=
  if e ∈ es then es else es ++ [e]

/-- One iteration of the membership loop of `_populate_pathway_protein` from
manager.py: normalize the pathway id, skip with a warning when it is unknown,
otherwise insert the edge. -/
def ppp_step (pathway_ids : List PyStr) (acc : BuildResult) (pr : Edge) : BuildResult :=
  if strip_path pr.2 ∈ pathway_ids then
    { acc with edges := insertEdge (pr.1, strip_path pr.2) acc.edges }
  else { acc with misses := acc.misses ++ [strip_path pr.2] }

/-- The membership loop of `_populate_pathway_protein` from manager.py, lines
227-236, over the `(kegg_protein_id, kegg_pathway_id)` rows. -/
def populate_pathway_protein (pathway_ids : List PyStr) (pairs : List Edge) : BuildResult :=
  pairs.foldl (ppp_step pathway_ids) ⟨[], []⟩

/-- The pathways of a protein in the built relation. -/
def pathwaysOf (es : List Edge) (p : PyStr) : List PyStr :=
  (es.filter (fun e => decide (e.1 = p))).map Prod.snd

/-- The member proteins of a pathway in the built relation. -/
def proteinsOf (es : List Edge) (w : PyStr) : List PyStr :=
  (es.filter (fun e => decide (e.2 = w))).map Prod.fst

/-- A node of the extracted graph: the pathway node or one protein node. -/
inductive GNode where
  | pathwayNode (w : PyStr)
  | proteinNode (p : PyStr)
deriving DecidableEq

/-- A graph as produced by subgraph extraction: nodes and part-of edges. -/
structure BelGraph where
  nodes : List GNode
  edges : List (GNode × GNode)
deriving DecidableEq

/-- Modelled from the spec: `get_pathway_graph` / `extract_pathway_subgraph` is
provided by the external `CompathManager` base class and is not under `src/`;
per spec section 4.5 it resolves the pathway id against the relation, fails with
`UnknownPathwayError` when it is unknown, and otherwise returns a fresh graph
with one pathway node, one protein node per member, and one part-of edge per
member. -/
def extract_pathway_subgraph (pathway_ids : List PyStr) (es : List Edge) (w0 : PyStr) :
    Except PyErr BelGraph :=
  if strip_path w0 ∈ pathway_ids then
    Except.ok
      ⟨GNode.pathwayNode (strip_path w0) ::
         (proteinsOf es (strip_path w0)).map GNode.proteinNode,
       (proteinsOf es (strip_path w0)).map
         (fun p => (GNode.proteinNode p, GNode.pathwayNode (strip_path w0)))⟩
  else Except.error PyErr.unknownPathwayError

/-! Helper lemmas about the string primitives. -/

theorem splitOnceOn_of_not_mem {sep : Char} {s : PyStr} (h : sep ∉ s) :
    splitOnceOn sep s = none := by
  induction s with
  | nil => rfl
  | cons c cs ih =>
    simp only [List.mem_cons, not_or] at h
    simp [splitOnceOn, Ne.symm h.1, ih h.2]

theorem splitOnceOn_append {sep : Char} {a : PyStr} (ha : sep ∉ a) (b : PyStr) :
    splitOnceOn sep (a ++ sep :: b) = some (a, b) := by
  induction a with
  | nil => simp [splitOnceOn]
  | cons c cs ih =>
    simp only [List.mem_cons, not_or] at ha
    simp [splitOnceOn, Ne.symm ha.1, ih ha.2]

theorem splitOnceOn_some_of_mem {sep : Char} {s : PyStr} (h : sep ∈ s) :
    ∃ ab, splitOnceOn sep s = some ab := by
  induction s with
  | nil => simp at h
  | cons c cs ih =>
    by_cases hc : c = sep
    · exact ⟨([], cs), by simp [splitOnceOn, hc]⟩
    · have hmem : sep ∈ cs := by
        rcases List.mem_cons.mp h with h1 | h1
        · exact absurd h1.symm hc
        · exact h1
      rcases ih hmem with ⟨ab, hab⟩
      exact ⟨(c :: ab.1, ab.2), by simp [splitOnceOn, hc, hab]⟩

theorem pySplit_of_not_mem {sep : Char} {s : PyStr} (h : sep ∉ s) :
    pySplit sep s = [s] := by
  induction s with
  | nil => rfl
  | cons c cs ih =>
    simp only [List.mem_cons, not_or] at h
    simp [pySplit, Ne.symm h.1, ih h.2]

theorem pySplit_single_sep {sep : Char} {a b : PyStr} (ha : sep ∉ a) (hb : sep ∉ b) :
    pySplit sep (a ++ sep :: b) = [a, b] := by
  induction a with
  | nil => simp [pySplit, pySplit_of_not_mem hb]
  | cons c cs ih =>
    simp only [List.mem_cons, not_or] at ha
    simp [pySplit, Ne.symm ha.1, ih ha.2]

theorem remove_first_word_err {line : PyStr} (h : ' ' ∉ line) :
    remove_first_word line = Except.error PyErr.indexError := by
  simp [remove_first_word, splitOnceOn_of_not_mem h]

theorem remove_first_word_ok_of_mem {line : PyStr} (h : ' ' ∈ line) :
    ∃ r, remove_first_word line = Except.ok r := by
  rcases splitOnceOn_some_of_mem h with ⟨ab, hab⟩
  exact ⟨pyStrip ab.2, by simp [remove_first_word, hab]⟩

/-! Helper lemmas about the dictionary model. -/

theorem mem_dictInsert {p : PyStr × PyStr} {k v : PyStr} {d : List (PyStr × PyStr)}
    (h : p ∈ dictInsert k v d) : p ∈ d ∨ p = (k, v) := by
  unfold dictInsert at h
  by_cases hk : k ∈ d.map Prod.fst
  · rw [if_pos hk] at h
    rcases List.mem_map.mp h with ⟨q, hq, hfq⟩
    by_cases hq1 : q.1 = k
    · right
      rw [if_pos hq1] at hfq
      exact hfq.symm
    · left
      rw [if_neg hq1] at hfq
      exact hfq ▸ hq
  · rw [if_neg hk] at h
    rcases List.mem_append.mp h with h | h
    · exact Or.inl h
    · right
      simpa using h

theorem dictInsert_key_self (k v : PyStr) (d : List (PyStr × PyStr)) :
    ∃ v', (k, v') ∈ dictInsert k v d := by
  unfold dictInsert
  by_cases hk : k ∈ d.map Prod.fst
  · rw [if_pos hk]
    rcases List.mem_map.mp hk with ⟨q, hq, hfq⟩
    exact ⟨v, List.mem_map.mpr ⟨q, hq, by rw [if_pos hfq]⟩⟩
  · rw [if_neg hk]
    exact ⟨v, List.mem_append.mpr (Or.inr (by simp))⟩

theorem dictInsert_key_mono {a : PyStr} {d : List (PyStr × PyStr)}
    (h : ∃ v', (a, v') ∈ d) (k v : PyStr) : ∃ v', (a, v') ∈ dictInsert k v d := by
  rcases h with ⟨v', hv⟩
  unfold dictInsert
  by_cases hk : k ∈ d.map Prod.fst
  · rw [if_pos hk]
    by_cases hak : a = k
    · subst hak
      exact ⟨v, List.mem_map.mpr ⟨(a, v'), hv, by simp⟩⟩
    · exact ⟨v', List.mem_map.mpr ⟨(a, v'), hv, by simp [hak]⟩⟩
  · rw [if_neg hk]
    exact ⟨v', List.mem_append.mpr (Or.inl hv)⟩

theorem mem_foldl_dictInsert {items : List (PyStr × PyStr)} :
    ∀ {init : List (PyStr × PyStr)} {p},
      p ∈ items.foldl (fun d q => dictInsert q.1 q.2 d) init → p ∈ init ∨ p ∈ items := by
  induction items with
  | nil =>
    intro init p h
    exact Or.inl h
  | cons q items ih =>
    intro init p h
    simp only [List.foldl_cons] at h
    rcases ih h with h1 | h1
    · rcases mem_dictInsert h1 with h2 | h2
      · exact Or.inl h2
      · right
        rw [h2]
        exact List.mem_cons_self _ _
    · exact Or.inr (List.mem_cons_of_mem _ h1)

theorem key_mem_foldl_dictInsert {items : List (PyStr × PyStr)} :
    ∀ {init : List (PyStr × PyStr)} {a},
      ((∃ v, (a, v) ∈ init) ∨ a ∈ items.map Prod.fst) →
      ∃ v, (a, v) ∈ items.foldl (fun d q => dictInsert q.1 q.2 d) init := by
  induction items with
  | nil =>
    intro init a h
    rcases h with h | h
    · exact h
    · simp at h
  | cons q items ih =>
    intro init a h
    simp only [List.foldl_cons]
    apply ih
    rcases h with h | h
    · exact Or.inl (dictInsert_key_mono h q.1 q.2)
    · simp only [List.map_cons, List.mem_cons] at h
      rcases h with h | h
      · subst h
        exact Or.inl (dictInsert_key_self q.1 q.2 init)
      · exact Or.inr h

theorem mem_dictOf {items : List (PyStr × PyStr)} {p : PyStr × PyStr}
    (h : p ∈ dictOf items) : p ∈ items := by
  unfold dictOf at h
  rcases mem_foldl_dictInsert h with h1 | h1
  · simp at h1
  · exact h1

theorem key_mem_dictOf {items : List (PyStr × PyStr)} {a : PyStr}
    (h : a ∈ items.map Prod.fst) : ∃ v, (a, v) ∈ dictOf items := by
  unfold dictOf
  exact key_mem_foldl_dictInsert (Or.inr h)

/-! Helper lemmas about the membership loop. -/

theorem mem_insertEdge {e f : Edge} {es : List Edge} :
    e ∈ insertEdge f es ↔ e ∈ es ∨ e = f := by
  unfold insertEdge
  by_cases hf : f ∈ es
  · rw [if_pos hf]
    constructor
    · exact Or.inl
    · rintro (h | h)
      · exact h
      · exact h ▸ hf
  · rw [if_neg hf]
    simp

theorem insertEdge_nodup {f : Edge} {es : List Edge} (h : es.Nodup) :
    (insertEdge f es).Nodup := by
  unfold insertEdge
  by_cases hf : f ∈ es
  · rwa [if_pos hf]
  · rw [if_neg hf]
    refine h.append (List.nodup_singleton f) ?_
    intro x hx hx'
    rw [List.mem_singleton] at hx'
    exact hf (hx' ▸ hx)

theorem foldl_ppp_edges_mono {ids : List PyStr} {pairs : List Edge} :
    ∀ {acc : BuildResult} {e : Edge},
      e ∈ acc.edges → e ∈ (pairs.foldl (ppp_step ids) acc).edges := by
  induction pairs with
  | nil =>
    intro acc e h
    exact h
  | cons pr pairs ih =>
    intro acc e h
    simp only [List.foldl_cons]
    apply ih
    unfold ppp_step
    by_cases hw : strip_path pr.2 ∈ ids
    · rw [if_pos hw]
      exact mem_insertEdge.mpr (Or.inl h)
    · rw [if_neg hw]
      exact h

theorem foldl_ppp_edges_sound {ids : List PyStr} {pairs : List Edge} :
    ∀ {acc : BuildResult}, (∀ e ∈ acc.edges, e.2 ∈ ids) →
      ∀ e ∈ (pairs.foldl (ppp_step ids) acc).edges, e.2 ∈ ids := by
  induction pairs with
  | nil =>
    intro acc h
    exact h
  | cons pr pairs ih =>
    intro acc h
    simp only [List.foldl_cons]
    apply ih
    intro e he
    unfold ppp_step at he
    by_cases hw : strip_path pr.2 ∈ ids
    · rw [if_pos hw] at he
      rcases mem_insertEdge.mp he with h1 | h1
      · exact h e h1
      · rw [h1]
        exact hw
    · rw [if_neg hw] at he
      exact h e he

theorem foldl_ppp_edges_insert {ids : List PyStr} {pairs : List Edge} :
    ∀ {acc : BuildResult} {pr : Edge}, pr ∈ pairs → strip_path pr.2 ∈ ids →
      (pr.1, strip_path pr.2) ∈ (pairs.foldl (ppp_step ids) acc).edges := by
  induction pairs with
  | nil =>
    intro acc pr h
    simp at h
  | cons q pairs ih =>
    intro acc pr hmem hw
    simp only [List.foldl_cons]
    rcases List.mem_cons.mp hmem with h | h
    · subst h
      apply foldl_ppp_edges_mono
      unfold ppp_step
      rw [if_pos hw]
      exact mem_insertEdge.mpr (Or.inr rfl)
    · exact ih h hw

theorem foldl_ppp_misses_mono {ids : List PyStr} {pairs : List Edge} :
    ∀ {acc : BuildResult} {m : PyStr},
      m ∈ acc.misses → m ∈ (pairs.foldl (ppp_step ids) acc).misses := by
  induction pairs with
  | nil =>
    intro acc m h
    exact h
  | cons pr pairs ih =>
    intro acc m h
    simp only [List.foldl_cons]
    apply ih
    unfold ppp_step
    by_cases hw : strip_path pr.2 ∈ ids
    · rw [if_pos hw]
      exact h
    · rw [if_neg hw]
      exact List.mem_append.mpr (Or.inl h)

theorem foldl_ppp_misses_insert {ids : List PyStr} {pairs : List Edge} :
    ∀ {acc : BuildResult} {pr : Edge}, pr ∈ pairs → strip_path pr.2 ∉ ids →
      strip_path pr.2 ∈ (pairs.foldl (ppp_step ids) acc).misses := by
  induction pairs with
  | nil =>
    intro acc pr h
    simp at h
  | cons q pairs ih =>
    intro acc pr hmem hw
    simp only [List.foldl_cons]
    rcases List.mem_cons.mp hmem with h | h
    · subst h
      apply foldl_ppp_misses_mono
      unfold ppp_step
      rw [if_neg hw]
      exact List.mem_append.mpr (Or.inr (by simp))
    · exact ih h hw

theorem foldl_ppp_nodup {ids : List PyStr} {pairs : List Edge} :
    ∀ {acc : BuildResult}, acc.edges.Nodup → (pairs.foldl (ppp_step ids) acc).edges.Nodup := by
  induction pairs with
  | nil =>
    intro acc h
    exact h
  | cons pr pairs ih =>
    intro acc h
    simp only [List.foldl_cons]
    apply ih
    unfold ppp_step
    by_cases hw : strip_path pr.2 ∈ ids
    · rw [if_pos hw]
      exact insertEdge_nodup h
    · rw [if_neg hw]
      exact h

theorem mem_pathwaysOf {es : List Edge} {p w : PyStr} :
    w ∈ pathwaysOf es p ↔ (p, w) ∈ es := by
  unfold pathwaysOf
  constructor
  · intro h
    rcases List.mem_map.mp h with ⟨e, he, hw⟩
    rcases List.mem_filter.mp he with ⟨h1, h2⟩
    obtain ⟨e1, e2⟩ := e
    have h2' : e1 = p := of_decide_eq_true h2
    subst h2'
    subst hw
    exact h1
  · intro h
    exact List.mem_map.mpr ⟨(p, w), List.mem_filter.mpr ⟨h, decide_eq_true rfl⟩, rfl⟩

theorem mem_proteinsOf {es : List Edge} {p w : PyStr} :
    p ∈ proteinsOf es w ↔ (p, w) ∈ es := by
  unfold proteinsOf
  constructor
  · intro h
    rcases List.mem_map.mp h with ⟨e, he, hp⟩
    rcases List.mem_filter.mp he with ⟨h1, h2⟩
    obtain ⟨e1, e2⟩ := e
    have h2' : e2 = w := of_decide_eq_true h2
    subst h2'
    subst hp
    exact h1
  · intro h
    exact List.mem_map.mpr ⟨(p, w), List.mem_filter.mpr ⟨h, decide_eq_true rfl⟩, rfl⟩

/-! The claims. -/

/-- C1, counterexample: the claim is false on the code.  On the spec's own
scenario line, which is indented, `remove_first_word` removes only the empty
word before the leading space, so the keyword stays in the first component and
the result is not `('NCBI-GeneID', '5214')`.  Moreover a remainder with two
colons raises `ValueError` instead of splitting at the first colon. -/
theorem c1_counterexample :
    parse_link_line "  DBLINKS     NCBI-GeneID: 5214".toList =
      Except.ok ("DBLINKS     NCBI-GeneID".toList, "5214".toList) ∧
    ("DBLINKS     NCBI-GeneID".toList : PyStr) ≠ "NCBI-GeneID".toList ∧
    parse_link_line "DBLINKS     Pharos: Q01813(Tbio): x".toList =
      Except.error (PyErr.valueError "too many values to unpack (expected 2)".toList) := by
  refine ⟨by decide, by decide, by decide⟩

/-- C1, amended: for every DBLINKS line whose remainder after
`remove_first_word` (which drops everything up to the first space and strips
surrounding whitespace; it removes the keyword token only on unindented lines)
contains exactly one colon, `parse_link_line` returns the pair obtained by
splitting the remainder at that colon with whitespace trimmed on both sides,
and does not raise. -/
theorem c1_link_line_single_colon (line a b : PyStr)
    (h : remove_first_word line = Except.ok (a ++ ':' :: b))
    (ha : ':' ∉ a) (hb : ':' ∉ b) :
    parse_link_line line = Except.ok (pyStrip a, pyStrip b) := by
  simp [parse_link_line, h, pySplit_single_sep ha hb, unpack2]

/-- C1, witness: the unindented scenario line parses to the expected pair. -/
theorem c1_witness :
    parse_link_line "DBLINKS     NCBI-GeneID: 5214".toList =
      Except.ok (pyStrip "NCBI-GeneID".toList, pyStrip " 5214".toList) :=
  c1_link_line_single_colon "DBLINKS     NCBI-GeneID: 5214".toList
    "NCBI-GeneID".toList " 5214".toList (by decide) (by decide) (by decide)

/-- C2, counterexample: on a DBLINKS line lacking a colon the code does raise a
hard error, but it is a bare `ValueError` from tuple unpacking whose message
does not name the offending line. -/
theorem c2_counterexample :
    parse_link_line "  DBLINKS     NCBI-GeneID 5214".toList =
      Except.error
        (PyErr.valueError "not enough values to unpack (expected 2, got 1)".toList) ∧
    ¬ ("  DBLINKS     NCBI-GeneID 5214".toList <:+:
        "not enough values to unpack (expected 2, got 1)".toList) := by
  constructor
  · decide
  · intro hinf
    have hB : 'B' ∈ "not enough values to unpack (expected 2, got 1)".toList :=
      hinf.subset (by decide)
    exact absurd hB (by decide)

/-- C2, amended: for every DBLINKS line whose remainder after
`remove_first_word` lacks a colon, `parse_link_line` raises a parse failure — a
`ValueError` from tuple unpacking, which does not name the offending line — and
`parse_description` on a record containing such a line propagates it; the
malformed line is a hard error, not silently tolerated. -/
theorem c2_no_colon_error :
    (∀ line r, remove_first_word line = Except.ok r → ':' ∉ r →
      parse_link_line line =
        Except.error
          (PyErr.valueError "not enough values to unpack (expected 2, got 1)".toList)) ∧
    parse_description ["DBLINKS     NCBI-GeneID 5214".toList] =
      Except.error
        (PyErr.valueError "not enough values to unpack (expected 2, got 1)".toList) := by
  constructor
  · intro line r h hr
    simp [parse_link_line, h, pySplit_of_not_mem hr, unpack2]
  · decide

/-- C2, witness: the malformed scenario line raises the unpacking error. -/
theorem c2_witness :
    parse_link_line "  DBLINKS     NCBI-GeneID 5214".toList =
      Except.error
        (PyErr.valueError "not enough values to unpack (expected 2, got 1)".toList) :=
  c2_no_colon_error.1 "  DBLINKS     NCBI-GeneID 5214".toList
    "DBLINKS     NCBI-GeneID 5214".toList (by decide) (by decide)

/-- C3, counterexample: a PATHWAY line with no payload after the keyword is not
tolerated — `remove_first_word` raises `IndexError`, and `parse_description` on
a record containing that line propagates the exception. -/
theorem c3_counterexample :
    parse_pathway_line "PATHWAY".toList = Except.error PyErr.indexError ∧
    parse_description ["PATHWAY".toList] = Except.error PyErr.indexError := by
  refine ⟨by decide, by decide⟩

/-- C3, amended: a line processed under any keyword other than DBLINKS is
tolerated by best-effort splitting and never raises, except that a line handled
by the PATHWAY branch while containing no space character at all (no payload
after the keyword) raises `IndexError`; ENTRY and NAME lines never raise. -/
theorem c3_tolerant_non_dblinks (kw0 : Option PyStr) (d : Description) (line : PyStr) :
    (effKeyword kw0 line ≠ none →
      effKeyword kw0 line ≠ some "DBLINKS".toList →
      (effKeyword kw0 line = some "PATHWAY".toList → ' ' ∈ line) →
      ∃ st', parse_description_step (kw0, d) line = Except.ok st') ∧
    (effKeyword kw0 line = some "PATHWAY".toList → ' ' ∉ line →
      parse_description_step (kw0, d) line = Except.error PyErr.indexError) := by
  constructor
  · intro h1 h2 h3
    cases hk : effKeyword kw0 line with
    | none => exact absurd hk h1
    | some kw =>
      have hstep : parse_description_step (kw0, d) line =
          match parse_line_with kw d line with
          | Except.error e => Except.error e
          | Except.ok d' => Except.ok (some kw, d') := by
        simp [parse_description_step, hk]
      by_cases hE : kw = "ENTRY".toList
      · exact ⟨(some kw, { d with entry := some (parse_entry_line line) }),
          by rw [hstep]; simp [parse_line_with, hE]⟩
      by_cases hN : kw = "NAME".toList
      · cases hpe : parse_entry_line line with
        | nil => exact ⟨(some kw, d), by rw [hstep]; simp [parse_line_with, hE, hN, hpe]⟩
        | cons x xs =>
          exact ⟨(some kw, { d with entry_name := some (pyStripSemis x) }),
            by rw [hstep]; simp [parse_line_with, hE, hN, hpe]⟩
      by_cases hP : kw = "PATHWAY".toList
      · have hsp : ' ' ∈ line := h3 (by rw [hk, hP])
        obtain ⟨r, hr⟩ := remove_first_word_ok_of_mem hsp
        exact ⟨(some kw, { d with pathway := d.pathway ++ [(reSplitWs2 r).map pyStripSpaces] }),
          by rw [hstep]; simp [parse_line_with, hE, hN, hP, parse_pathway_line, hr]⟩
      have hD : ¬ kw = "DBLINKS".toList := by
        intro hd
        exact h2 (by rw [hk, hd])
      refine ⟨(some kw, d), ?_⟩
      rw [hstep]
      simp only [parse_line_with]
      rw [if_neg hE, if_neg hN, if_neg hP, if_neg hD]
  · intro hk hsp
    have hstep : parse_description_step (kw0, d) line =
        match parse_line_with "PATHWAY".toList d line with
        | Except.error e => Except.error e
        | Except.ok d' => Except.ok (some "PATHWAY".toList, d') := by
      simp [parse_description_step, hk]
    have hp : parse_pathway_line line = Except.error PyErr.indexError := by
      unfold parse_pathway_line
      rw [remove_first_word_err hsp]
    rw [hstep]
    simp [parse_line_with, hp]

/-- C3, witness: a NAME line with no payload is tolerated. -/
theorem c3_witness :
    ∃ st', parse_description_step ((none : Option PyStr), ({} : Description)) "NAME".toList =
      Except.ok st' :=
  (c3_tolerant_non_dblinks none {} "NAME".toList).1 (by decide) (by decide) (by decide)

/-- C4: every pair surviving `kegg_properties_to_models` has a value shorter
than 255 characters (so any attribute value of length at least 255 is absent
from the output), and every retained key is the lowercased input key with
the id suffix appended. -/
theorem c4_projection_guard (kegg_attributes : List (PyStr × PyStr)) :
    ∀ p ∈ kegg_properties_to_models kegg_attributes,
      p.2.length < 255 ∧
      ∃ kv ∈ kegg_attributes, p.1 = pyLower kv.1 ++ "_id".toList ∧ p.2 = kv.2 := by
  intro p hp
  unfold kegg_properties_to_models at hp
  have hp' := mem_dictOf hp
  rcases List.mem_map.mp hp' with ⟨q, hq, hfq⟩
  rcases List.mem_filter.mp hq with ⟨hq1, hq2⟩
  subst hfq
  exact ⟨of_decide_eq_true hq2, q, hq1, rfl, rfl⟩

/-- C4, witness: a short HGNC attribute is retained under the renamed key. -/
theorem c4_witness :
    (("hgnc_id".toList, "8878".toList) : PyStr × PyStr).2.length < 255 ∧
    ∃ kv ∈ [(("HGNC".toList, "8878".toList) : PyStr × PyStr)],
      (("hgnc_id".toList, "8878".toList) : PyStr × PyStr).1 = pyLower kv.1 ++ "_id".toList ∧
      (("hgnc_id".toList, "8878".toList) : PyStr × PyStr).2 = kv.2 :=
  c4_projection_guard [(("HGNC".toList, "8878".toList) : PyStr × PyStr)]
    (("hgnc_id".toList, "8878".toList) : PyStr × PyStr) (by decide)

/-- C5: `get_description_properties` fails with the missing-section error
(`KeyError` in the code) on a record lacking the requested section, and on a
record containing the section it keeps exactly the pairs whose key is among the
allowed columns: every output pair is such a pair of the section, and every
allowed key of the section is a key of the output. -/
theorem c5_field_projector (description : List (PyStr × List (PyStr × PyStr)))
    (description_property : PyStr) (columns : List PyStr) :
    (lookupAssoc description description_property = none →
      get_description_properties description description_property columns =
        Except.error PyErr.keyError) ∧
    (∀ pairs, lookupAssoc description description_property = some pairs →
      ∃ out, get_description_properties description description_property columns =
          Except.ok out ∧
        (∀ p ∈ out, p ∈ pairs ∧ p.1 ∈ columns) ∧
        (∀ p ∈ pairs, p.1 ∈ columns → ∃ v, (p.1, v) ∈ out)) := by
  constructor
  · intro h
    unfold get_description_properties
    rw [h]
  · intro pairs h
    refine ⟨dictOf (pairs.filter (fun p => decide (p.1 ∈ columns))), ?_, ?_, ?_⟩
    · unfold get_description_properties
      rw [h]
    · intro p hp
      rcases List.mem_filter.mp (mem_dictOf hp) with ⟨h1, h2⟩
      exact ⟨h1, of_decide_eq_true h2⟩
    · intro p hp hcol
      apply key_mem_dictOf
      exact List.mem_map.mpr ⟨p, List.mem_filter.mpr ⟨hp, decide_eq_true hcol⟩, rfl⟩

/-- C5, witness: the missing section errors; the present section is filtered to
the allowed columns. -/
theorem c5_witness :
    get_description_properties [] "DBLINKS".toList [] = Except.error PyErr.keyError ∧
    ∃ out, get_description_properties
        [("DBLINKS".toList,
          [("HGNC".toList, "8878".toList), ("Vega".toList, "OTT".toList)])]
        "DBLINKS".toList ["HGNC".toList, "UniProt".toList] = Except.ok out ∧
      (∀ p ∈ out,
        p ∈ [(("HGNC".toList, "8878".toList) : PyStr × PyStr),
             ("Vega".toList, "OTT".toList)] ∧
        p.1 ∈ ["HGNC".toList, "UniProt".toList]) ∧
      (∀ p ∈ [(("HGNC".toList, "8878".toList) : PyStr × PyStr),
              ("Vega".toList, "OTT".toList)],
        p.1 ∈ ["HGNC".toList, "UniProt".toList] → ∃ v, (p.1, v) ∈ out) :=
  ⟨(c5_field_projector [] "DBLINKS".toList []).1 rfl,
   (c5_field_projector
      [("DBLINKS".toList,
        [("HGNC".toList, "8878".toList), ("Vega".toList, "OTT".toList)])]
      "DBLINKS".toList ["HGNC".toList, "UniProt".toList]).2
     [("HGNC".toList, "8878".toList), ("Vega".toList, "OTT".toList)] rfl⟩

/-- C6: in the membership loop every pathway id is normalized by stripping an
optional path prefix before lookup; every inserted edge refers to a known
pathway id (an unknown pair is never linked), every pair whose normalized
pathway id is known is inserted, and every pair whose normalized pathway id is
unknown is recorded as a warned miss; the build itself is total. -/
theorem c6_membership_loop (pathway_ids : List PyStr) (pairs : List Edge) :
    (∀ e ∈ (populate_pathway_protein pathway_ids pairs).edges, e.2 ∈ pathway_ids) ∧
    (∀ pr ∈ pairs, strip_path pr.2 ∈ pathway_ids →
      (pr.1, strip_path pr.2) ∈ (populate_pathway_protein pathway_ids pairs).edges) ∧
    (∀ pr ∈ pairs, strip_path pr.2 ∉ pathway_ids →
      strip_path pr.2 ∈ (populate_pathway_protein pathway_ids pairs).misses) := by
  refine ⟨?_, ?_, ?_⟩
  · exact foldl_ppp_edges_sound (fun e he => absurd he (List.not_mem_nil e))
  · intro pr h hw
    exact foldl_ppp_edges_insert h hw
  · intro pr h hw
    exact foldl_ppp_misses_insert h hw

/-- C6, witness: a known pair (with path prefix) is linked under the stripped
id, and an unknown pair is recorded as a miss. -/
theorem c6_witness :
    (("hsa:5214".toList, "hsa00030".toList) : Edge) ∈
      (populate_pathway_protein ["hsa00030".toList]
        [("hsa:5214".toList, "path:hsa00030".toList),
         ("hsa:1".toList, "path:bad".toList)]).edges ∧
    "bad".toList ∈
      (populate_pathway_protein ["hsa00030".toList]
        [("hsa:5214".toList, "path:hsa00030".toList),
         ("hsa:1".toList, "path:bad".toList)]).misses :=
  ⟨(c6_membership_loop ["hsa00030".toList]
      [("hsa:5214".toList, "path:hsa00030".toList), ("hsa:1".toList, "path:bad".toList)]).2.1
     ("hsa:5214".toList, "path:hsa00030".toList) (by decide) (by decide),
   (c6_membership_loop ["hsa00030".toList]
      [("hsa:5214".toList, "path:hsa00030".toList), ("hsa:1".toList, "path:bad".toList)]).2.2
     ("hsa:1".toList, "path:bad".toList) (by decide) (by decide)⟩

/-- C7: a built relation is symmetric — a pathway is among the pathways of a
protein exactly when the protein is among the member proteins of the pathway. -/
theorem c7_symmetry (pathway_ids : List PyStr) (pairs : List Edge) (p w : PyStr) :
    w ∈ pathwaysOf (populate_pathway_protein pathway_ids pairs).edges p ↔
    p ∈ proteinsOf (populate_pathway_protein pathway_ids pairs).edges w := by
  rw [mem_pathwaysOf, mem_proteinsOf]

/-- C8: the membership loop deduplicates — for every input sequence of pairs,
repeated or not, every edge appears at most once in the built relation. -/
theorem c8_dedup (pathway_ids : List PyStr) (pairs : List Edge) :
    (populate_pathway_protein pathway_ids pairs).edges.Nodup :=
  foldl_ppp_nodup List.nodup_nil

/-- C9: on a known pathway id, subgraph extraction over a built relation
returns a graph with one node more than the pathway's member count and exactly
one edge per member; on an unknown pathway id it fails with
`UnknownPathwayError`. -/
theorem c9_subgraph (pathway_ids : List PyStr) (pairs : List Edge) (w : PyStr) :
    (strip_path w ∈ pathway_ids →
      ∃ g, extract_pathway_subgraph pathway_ids
          (populate_pathway_protein pathway_ids pairs).edges w = Except.ok g ∧
        g.nodes.length =
          1 + (proteinsOf (populate_pathway_protein pathway_ids pairs).edges
                (strip_path w)).length ∧
        g.edges.length =
          (proteinsOf (populate_pathway_protein pathway_ids pairs).edges
            (strip_path w)).length) ∧
    (strip_path w ∉ pathway_ids →
      extract_pathway_subgraph pathway_ids
        (populate_pathway_protein pathway_ids pairs).edges w =
          Except.error PyErr.unknownPathwayError) := by
  constructor
  · intro h
    refine ⟨⟨GNode.pathwayNode (strip_path w) ::
        (proteinsOf (populate_pathway_protein pathway_ids pairs).edges (strip_path w)).map
          GNode.proteinNode,
      (proteinsOf (populate_pathway_protein pathway_ids pairs).edges (strip_path w)).map
        (fun p => (GNode.proteinNode p, GNode.pathwayNode (strip_path w)))⟩, ?_, ?_, ?_⟩
    · unfold extract_pathway_subgraph
      rw [if_pos h]
    · simp [Nat.add_comm]
    · simp
  · intro h
    unfold extract_pathway_subgraph
    rw [if_neg h]

/-- C9, witness: a one-member pathway yields two nodes and one edge; an unknown
pathway id fails. -/
theorem c9_witness :
    (∃ g, extract_pathway_subgraph ["hsa00030".toList]
        (populate_pathway_protein ["hsa00030".toList]
          [("hsa:5214".toList, "path:hsa00030".toList)]).edges "path:hsa00030".toList =
        Except.ok g ∧
      g.nodes.length =
        1 + (proteinsOf (populate_pathway_protein ["hsa00030".toList]
              [("hsa:5214".toList, "path:hsa00030".toList)]).edges
              (strip_path "path:hsa00030".toList)).length ∧
      g.edges.length =
        (proteinsOf (populate_pathway_protein ["hsa00030".toList]
          [("hsa:5214".toList, "path:hsa00030".toList)]).edges
          (strip_path "path:hsa00030".toList)).length) ∧
    extract_pathway_subgraph ["hsa00030".toList]
      (populate_pathway_protein ["hsa00030".toList]
        [("hsa:5214".toList, "path:hsa00030".toList)]).edges "path:nope".toList =
      Except.error PyErr.unknownPathwayError :=
  ⟨(c9_subgraph ["hsa00030".toList]
      [("hsa:5214".toList, "path:hsa00030".toList)] "path:hsa00030".toList).1 (by decide),
   (c9_subgraph ["hsa00030".toList]
      [("hsa:5214".toList, "path:hsa00030".toList)] "path:nope".toList).2 (by decide)⟩

/-- C10: when the first line handed to `parse_description` begins with a space,
no section keyword has been assigned yet, and reading the carried-forward
`keyword` variable raises an unbound-local error instead of skipping the line. -/
theorem c10_unbound_keyword (line : PyStr) (rest : List PyStr)
    (h : pyStartswithSpace line = true) :
    parse_description (line :: rest) = Except.error PyErr.unboundLocalError := by
  have hstep : parse_description_step ((none : Option PyStr), ({} : Description)) line =
      Except.error PyErr.unboundLocalError := by
    simp [parse_description_step, effKeyword, h]
  unfold parse_description
  rw [List.foldlM_cons, hstep]
  rfl

/-- C10, witness: an indented first line makes `parse_description` raise. -/
theorem c10_witness :
    parse_description ["  NAME   PFKP".toList] = Except.error PyErr.unboundLocalError :=
  c10_unbound_keyword "  NAME   PFKP".toList [] (by decide)
